import Mathlib

/-!
Shallow embedding of `src/kirana_data_generator.py`, a synthetic business-data
generator for a small retail store.  Python `datetime` values are modelled as
Gregorian (year, month, day) records with an explicit day-ordinal; the global
`random` module (and the Faker provider) is modelled as an explicit stream of
natural-number draws threaded through every generator; monetary values are
rationals, and Python's two-decimal `round` is modelled as exact half-even
rounding on rationals.  Fallible code (`random.choice` on an empty sequence,
`.iloc[0]` on an empty selection) is modelled with `Option`.
-/

/-- Gregorian calendar date, as carried by Python `datetime` (year, month, day). -/
structure Date where
  year : Nat
  month : Nat
  day : Nat
deriving DecidableEq

/-- Gregorian leap-year rule, as implemented by Python's `calendar`/`datetime`. -/
def isLeap (y : Nat) : Bool :=
  (y % 4 == 0 && y % 100 != 0) || (y % 400 == 0)

/-- Number of days of month `m` in year `y`. -/
def daysInMonth (y m : Nat) : Nat :=
  if m = 2 then (if isLeap y then 29 else 28)
  else if m = 4 ∨ m = 6 ∨ m = 9 ∨ m = 11 then 30
  else 31

/-- Days of year `y` strictly before the first day of month `m`. -/
def monthOffset (leap : Bool) (m : Nat) : Nat :=
  let base :=
    match m with
    | 1 => 0 | 2 => 31 | 3 => 59 | 4 => 90 | 5 => 120 | 6 => 151
    | 7 => 181 | 8 => 212 | 9 => 243 | 10 => 273 | 11 => 304 | _ => 334
  if leap && 3 ≤ m then base + 1 else base

/-- Number of leap years strictly before year `y` (proleptic Gregorian). -/
def leapsBefore (y : Nat) : Nat := (y - 1) / 4 - (y - 1) / 100 + (y - 1) / 400

/-- Day ordinal: number of days since 0001-01-01 (which has ordinal 0).
Matches Python `datetime.toordinal()` minus one. -/
def Date.toOrd (d : Date) : Nat :=
  365 * (d.year - 1) + leapsBefore d.year + monthOffset (isLeap d.year) d.month + (d.day - 1)

/-- Weekday as in Python `datetime.weekday()`: Monday is 0, Sunday is 6.
0001-01-01 is a Monday in the proleptic Gregorian calendar. -/
def Date.weekday (d : Date) : Nat := d.toOrd % 7

/-- The next calendar day: Python `current_date + timedelta(days=1)`. -/
def Date.succ (d : Date) : Date :=
  if d.day < daysInMonth d.year d.month then ⟨d.year, d.month, d.day + 1⟩
  else if d.month < 12 then ⟨d.year, d.month + 1, 1⟩
  else ⟨d.year + 1, 1, 1⟩

/-- A well-formed calendar date (what Python `datetime` can actually hold). -/
def Date.Valid (d : Date) : Prop :=
  1 ≤ d.year ∧ 1 ≤ d.month ∧ d.month ≤ 12 ∧ 1 ≤ d.day ∧ d.day ≤ daysInMonth d.year d.month

instance (d : Date) : Decidable d.Valid := by
  unfold Date.Valid; infer_instance

/-- The fixed holiday list of `generate_dates` (lines 20-27 of the source). -/
def holidays : List Date :=
  [⟨2024, 1, 26⟩, ⟨2024, 3, 25⟩, ⟨2024, 8, 15⟩, ⟨2024, 10, 2⟩, ⟨2024, 10, 12⟩, ⟨2024, 11, 1⟩]

/-- The filter applied by `generate_dates`:
`current_date.weekday() < 6 and current_date not in holidays`. -/
def isBusinessDay (d : Date) : Bool :=
  decide (d.weekday < 6) && decide (d ∉ holidays)

/-- Day-by-day scan of `generate_dates`, driven by the number of remaining
calendar days.  Each step either yields the current day (when it passes the
business-day filter) or skips it, then moves to the next calendar day. -/
def datesGo : Nat → Date → List Date
  | 0, _ => []
  | n + 1, c => (if isBusinessDay c then [c] else []) ++ datesGo n c.succ

/-- `generate_dates(start_date, end_date)` (source lines 18-33): the business
days of the inclusive range, in calendar order.  The Python `while
current_date <= end_date` loop runs once per calendar day of the range, i.e.
`end.toOrd + 1 - start.toOrd` times (zero when the end precedes the start). -/
def generate_dates (start_date end_date : Date) : List Date :=
  datesGo (end_date.toOrd + 1 - start_date.toOrd) start_date

/-- The state of the global random source: an arbitrary stream of raw draws
(`gen`) together with the position of the next draw. -/
structure Rng where
  gen : Nat → Nat
  pos : Nat

/-- Take one raw draw from the stream. -/
def Rng.next (r : Rng) : Nat × Rng := (r.gen r.pos, ⟨r.gen, r.pos + 1⟩)

/-- Model of `random.randint(lo, hi)` (both ends inclusive, `lo ≤ hi`):
one draw, mapped into the interval. -/
def randint (lo hi : Nat) (r : Rng) : Nat × Rng :=
  let n := r.next
  (lo + n.1 % (hi + 1 - lo), n.2)

/-- Model of `random.uniform(lo, hi)`: one draw, mapped to
`lo + (hi - lo) * u` with `u ∈ [0, 1)` taken from the draw. -/
def uniform (lo hi : ℚ) (r : Rng) : ℚ × Rng :=
  let n := r.next
  (lo + (hi - lo) * ((n.1 % 1000000 : Nat) : ℚ) / 1000000, n.2)

/-- Model of `random.choice(seq)`: raises (`none`) on an empty sequence,
otherwise picks the element indexed by the draw. -/
def choice {α : Type} (l : List α) (r : Rng) : Option (α × Rng) :=
  let n := r.next
  match l with
  | [] => none
  | x :: xs => some ((x :: xs).getD (n.1 % (x :: xs).length) x, n.2)

/-- Model of `random.choice(seq)` on a sequence known to be nonempty (every
use site passes a literal nonempty list, so the default is never returned). -/
def choiceD {α : Type} (l : List α) (dflt : α) (r : Rng) : α × Rng :=
  let n := r.next
  (l.getD (n.1 % l.length) dflt, n.2)

/-- Model of the Faker name provider behind `fake.company().split()[0]`:
one draw from a fixed pool of brand tokens. -/
def fakeCompanyWord (r : Rng) : String × Rng :=
  choiceD ["Agarwal", "Sharma", "Patel", "Gupta", "Mehta", "Reddy"] "Agarwal" r

/-- Model of `fake.time_object()` reduced to the `(hour, minute)` pair kept by
`strftime('%H:%M')`: one draw. -/
def fakeTimeHM (r : Rng) : (Nat × Nat) × Rng :=
  let n := r.next
  ((n.1 % 24, n.1 / 24 % 60), n.2)

/-- Python's bankers rounding of a rational to the nearest integer:
round half to even. -/
def roundHalfEven (q : ℚ) : ℤ :=
  let n := ⌊q⌋
  if q - n < 1/2 then n
  else if (1 : ℚ)/2 < q - n then n + 1
  else if n % 2 = 0 then n else n + 1

/-- Python `round(x, 2)` on exact rationals. -/
def round2 (q : ℚ) : ℚ := (roundHalfEven (q * 100) : ℚ) / 100

/-- `q` is a value with at most two decimal places. -/
def twoDec (q : ℚ) : Prop := ∃ z : ℤ, (z : ℚ) = 100 * q

/-- Configuration constant `NUM_PRODUCTS` (source line 13). -/
def NUM_PRODUCTS : Nat := 100

/-- Configuration constant `DAILY_TRANSACTIONS_RANGE` (source line 14). -/
def DAILY_TRANSACTIONS_RANGE : Nat × Nat := (80, 120)

/-- One product record of the generated catalog. -/
structure Product where
  sno : Nat
  product_name : String
  category : String
  mrp : ℚ
  cost_price : ℚ
  shelf_life_days : Nat
deriving DecidableEq

/-- One sales transaction record. -/
structure Txn where
  sno : Nat
  date : Date
  time : Nat × Nat
  product_name : String
  quantity : Nat
  unit_price : ℚ
  total_amount : ℚ
  payment_mode : String
  transaction_type : String
deriving DecidableEq

/-- One expense record. -/
structure Expense where
  sno : Nat
  date : Date
  category : String
  amount : ℚ
  frequency : String
  notes : String
deriving DecidableEq

/-- The fixed category table of `generate_products` (source lines 37-43),
in insertion order. -/
def productCategories : List (String × List String) :=
  [("Staples", ["Rice", "Wheat Flour", "Dal", "Salt", "Sugar"]),
   ("Snacks", ["Biscuits", "Chips", "Chocolates", "Namkeen"]),
   ("Beverages", ["Tea", "Coffee", "Juice", "Soft Drinks"]),
   ("Personal Care", ["Soap", "Shampoo", "Toothpaste", "Detergent"]),
   ("Groceries", ["Oil", "Spices", "Pulses", "Masala"])]

/-- Loop body of `generate_products`: `i` is the Python loop index; draws are
taken in source order (category, base item, brand word, MRP, cost, shelf life). -/
def genProductsGo : Nat → Nat → Rng → List Product × Rng
  | 0, _, r => ([], r)
  | n + 1, i, r =>
    let ci := choiceD productCategories ("Staples", []) r
    let base := choiceD ci.1.2 "Rice" ci.2
    let brand := fakeCompanyWord base.2
    let m := uniform 10 500 brand.2
    let c := uniform 5 400 m.2
    let sl := randint 30 720 c.2
    let p : Product :=
      ⟨i + 1, brand.1 ++ " " ++ base.1, ci.1.1, round2 m.1, round2 c.1, sl.1⟩
    let rest := genProductsGo n (i + 1) sl.2
    (p :: rest.1, rest.2)

/-- `generate_products(num_products)` (source lines 35-59). -/
def generate_products (num_products : Nat) (r : Rng) : List Product × Rng :=
  genProductsGo num_products 0 r

/-- The discount pool `[0, 0, 0, 0.05, 0.1]` (source line 77). -/
def discounts : List ℚ := [0, 0, 0, 1/20, 1/10]

/-- One iteration of the inner loop of `generate_transactions` (source lines
72-93): pick a product name, look up the first catalog row with that name,
then draw quantity, discount, time, payment mode and transaction channel. -/
def genTxn (date : Date) (products : List Product) (sno : Nat) (r : Rng) :
    Option (Txn × Rng) :=
  match choice (products.map (fun p => p.product_name)) r with
  | none => none
  | some pr =>
    match products.find? (fun p => p.product_name == pr.1) with
    | none => none
    | some pd =>
      let q1 := randint 1 5 pr.2
      let d1 := choiceD discounts 0 q1.2
      let t1 := fakeTimeHM d1.2
      let p1 := choiceD ["Cash", "UPI", "Credit"] "Cash" t1.2
      let n1 := p1.2.next
      let tt := if n1.1 % 10 < 7 then "Walk-in"
                else if n1.1 % 10 < 9 then "Phone Order" else "Delivery"
      some (⟨sno, date, t1.1, pr.1, q1.1, round2 (pd.mrp * (1 - d1.1)),
             round2 (pd.mrp * (q1.1 : ℚ) * (1 - d1.1)), p1.1, tt⟩, n1.2)

/-- The inner `for _ in range(daily_transactions)` loop of
`generate_transactions`, threading the running sequence number. -/
def genTxnDay (date : Date) (products : List Product) :
    Nat → Nat → Rng → Option (List Txn × Nat × Rng)
  | 0, sno, r => some ([], sno, r)
  | c + 1, sno, r =>
    match genTxn date products sno r with
    | none => none
    | some tr =>
      match genTxnDay date products c (sno + 1) tr.2 with
      | none => none
      | some rest => some (tr.1 :: rest.1, rest.2)

/-- The outer per-day loop of `generate_transactions` (source lines 66-95):
draw the base count, apply the 1.3 weekend multiplier when `weekday >= 5`,
truncate with `int(...)`, then run the inner loop. -/
def genTxnDays (products : List Product) :
    List Date → Nat → Rng → Option (List Txn × Nat × Rng)
  | [], sno, r => some ([], sno, r)
  | d :: ds, sno, r =>
    let b1 := randint DAILY_TRANSACTIONS_RANGE.1 DAILY_TRANSACTIONS_RANGE.2 r
    let multiplier : ℚ := if 5 ≤ d.weekday then 13/10 else 1
    let daily := (⌊(b1.1 : ℚ) * multiplier⌋).toNat
    match genTxnDay d products daily sno b1.2 with
    | none => none
    | some day =>
      match genTxnDays products ds day.2.1 day.2.2 with
      | none => none
      | some rest => some (day.1 ++ rest.1, rest.2)

/-- `generate_transactions(start_date, end_date, products)` (source lines
61-97).  `none` models the uncaught IndexError raised by `random.choice` on an
empty catalog. -/
def generate_transactions (start_date end_date : Date) (products : List Product)
    (r : Rng) : Option (List Txn × Rng) :=
  (genTxnDays products (generate_dates start_date end_date) 1 r).map
    (fun x => (x.1, x.2.2))

/-- The fixed expense table of `generate_expenses` (source lines 105-116), in
insertion order: (category, frequency, low amount, high amount). -/
def expense_categories : List (String × String × ℚ × ℚ) :=
  [("Rent", "monthly", 15000, 20000),
   ("Electricity", "monthly", 3000, 5000),
   ("Water", "monthly", 500, 800),
   ("Staff Salary", "monthly", 8000, 12000),
   ("Transportation", "daily", 100, 300),
   ("Cleaning", "daily", 50, 100),
   ("Maintenance", "weekly", 200, 500),
   ("Internet & Phone", "monthly", 1000, 1500),
   ("Packaging Material", "weekly", 500, 1000),
   ("Miscellaneous", "daily", 100, 300)]

/-- The `should_record` condition of `generate_expenses` (source lines
124-128): daily always, weekly on Monday, monthly on the first of the month. -/
def shouldRecord (frequency : String) (d : Date) : Bool :=
  frequency == "daily" || (frequency == "weekly" && d.weekday == 0) ||
    (frequency == "monthly" && d.day == 1)

/-- The inner per-category loop of `generate_expenses`, threading the running
sequence number; one `uniform` draw per recorded expense. -/
def genExpCats (d : Date) : List (String × String × ℚ × ℚ) → Nat → Rng →
    List Expense × Nat × Rng
  | [], sno, r => ([], sno, r)
  | e :: rest, sno, r =>
    if shouldRecord e.2.1 d then
      let a1 := uniform e.2.2.1 e.2.2.2 r
      let x : Expense := ⟨sno, d, e.1, round2 a1.1, e.2.1,
        "Regular " ++ e.2.1 ++ " " ++ e.1.toLower ++ " expense"⟩
      let xs := genExpCats d rest (sno + 1) a1.2
      (x :: xs.1, xs.2)
    else genExpCats d rest sno r

/-- The outer per-day loop of `generate_expenses` (source lines 118-142). -/
def genExpDays : List Date → Nat → Rng → List Expense × Nat × Rng
  | [], sno, r => ([], sno, r)
  | d :: ds, sno, r =>
    let xs := genExpCats d expense_categories sno r
    let rest := genExpDays ds xs.2.1 xs.2.2
    (xs.1 ++ rest.1, rest.2)

/-- `generate_expenses(start_date, end_date)` (source lines 99-144). -/
def generate_expenses (start_date end_date : Date) (r : Rng) :
    List Expense × Rng :=
  let xs := genExpDays (generate_dates start_date end_date) 1 r
  (xs.1, xs.2.2)

/-- The `main()` pipeline (source lines 146-168) without the file writes:
products, then transactions over Jan 1 - Mar 31 2024 (aborting the run when
transaction generation raises), then expenses. -/
def runPipeline (r : Rng) : Option (List Product × List Txn × List Expense) :=
  let ps := generate_products NUM_PRODUCTS r
  match generate_transactions ⟨2024, 1, 1⟩ ⟨2024, 3, 31⟩ ps.1 ps.2 with
  | none => none
  | some ts =>
    let xs := generate_expenses ⟨2024, 1, 1⟩ ⟨2024, 3, 31⟩ ts.2
    some (ps.1, ts.1, xs.1)

/-- A concrete all-zero draw stream, used for closed instances. -/
def zrng : Rng := ⟨fun _ => 0, 0⟩

/-- A crafted draw stream: the first draw (the daily base count) is 0, and the
six draws of each generated transaction are 0 (product), 1 (quantity), 4
(discount), 0 (time), 0 (payment), 0 (channel). -/
def wgen : Nat → Nat :=
  fun i => if i = 0 then 0 else [0, 1, 4, 0, 0, 0].getD ((i - 1) % 6) 0

/-- The crafted stream as an initial random state. -/
def wrng : Rng := ⟨wgen, 0⟩

/-- A one-product catalog whose MRP is 10.04: two decimal places, inside the
configured `[10, 500]` bound. -/
def wp : Product := ⟨1, "B Rice", "Staples", 251/25, 5, 30⟩

/-- The catalog consisting of `wp` alone. -/
def wcat : List Product := [wp]

/-- The transaction list produced by running the generator on `wcat` with the
crafted stream `wrng` over the single business day 2024-01-02: eighty
transactions, each of quantity 2 at discount 0.1 off MRP 10.04. -/
def wts : List Txn :=
  (List.range' 1 80).map (fun k =>
    ⟨k, ⟨2024, 1, 2⟩, (0, 0), "B Rice", 2, 226/25, 1807/100, "Cash", "Walk-in"⟩)

/-- The first transaction of `wts`. -/
def wtx : Txn := ⟨1, ⟨2024, 1, 2⟩, (0, 0), "B Rice", 2, 226/25, 1807/100, "Cash", "Walk-in"⟩

/-- The single product generated from the all-zero stream. -/
def wprod : Product := ⟨1, "Agarwal Rice", "Staples", 10, 5, 30⟩

/-- The first expense generated on 2024-01-01 from the all-zero stream. -/
def wexp : Expense := ⟨1, ⟨2024, 1, 1⟩, "Rent", 15000, "monthly", "Regular monthly rent expense"⟩

/-! ### Calendar lemmas -/

lemma one_le_daysInMonth (y m : Nat) : 1 ≤ daysInMonth y m := by
  unfold daysInMonth
  split_ifs <;> omega

lemma monthOffset_succ (y m : Nat) (h1 : 1 ≤ m) (h2 : m ≤ 11) :
    monthOffset (isLeap y) (m + 1) = monthOffset (isLeap y) m + daysInMonth y m := by
  interval_cases m <;> cases hl : isLeap y <;> simp [monthOffset, daysInMonth, hl]

lemma isLeap_iff (y : Nat) :
    isLeap y = true ↔ ((y % 4 = 0 ∧ y % 100 ≠ 0) ∨ y % 400 = 0) := by
  simp [isLeap, Bool.or_eq_true, Bool.and_eq_true, beq_iff_eq, bne_iff_ne]

lemma leapsBefore_succ (y : Nat) (hy : 1 ≤ y) :
    leapsBefore (y + 1) = leapsBefore y + (if isLeap y then 1 else 0) := by
  by_cases hl : isLeap y = true
  · rw [if_pos hl]
    rw [isLeap_iff] at hl
    unfold leapsBefore
    omega
  · rw [if_neg hl]
    rw [isLeap_iff] at hl
    push_neg at hl
    unfold leapsBefore
    omega

lemma toOrd_succ (d : Date) (h : d.Valid) : d.succ.toOrd = d.toOrd + 1 := by
  obtain ⟨hy, hm1, hm2, hd1, hd2⟩ := h
  unfold Date.succ
  split_ifs with h1 h2
  · simp only [Date.toOrd]
    omega
  · have hmo := monthOffset_succ d.year d.month hm1 (by omega)
    simp only [Date.toOrd]
    omega
  · have hm12 : d.month = 12 := by omega
    have hdim : daysInMonth d.year 12 = 31 := by norm_num [daysInMonth]
    rw [hm12] at hd2 h1
    have hde : d.day = 31 := by omega
    have hlb := leapsBefore_succ d.year hy
    have hmo1 : monthOffset (isLeap (d.year + 1)) 1 = 0 := by
      cases isLeap (d.year + 1) <;> rfl
    have hmo12 : monthOffset (isLeap d.year) 12 = 334 + (if isLeap d.year then 1 else 0) := by
      by_cases hl : isLeap d.year = true <;> simp [monthOffset, hl]
    simp only [Date.toOrd, hm12, hde, hmo1, hmo12]
    omega

lemma valid_succ {d : Date} (h : d.Valid) : d.succ.Valid := by
  obtain ⟨hy, hm1, hm2, hd1, hd2⟩ := h
  unfold Date.succ
  split_ifs with h1 h2
  · exact ⟨hy, hm1, hm2, by dsimp only; omega, by dsimp only; omega⟩
  · exact ⟨hy, by dsimp only; omega, by dsimp only; omega, by dsimp only; omega,
      one_le_daysInMonth _ _⟩
  · have hdim : daysInMonth (d.year + 1) 1 = 31 := by norm_num [daysInMonth]
    exact ⟨by dsimp only; omega, by dsimp only; omega, by dsimp only; omega,
      by dsimp only; omega, by dsimp only; omega⟩

/-! ### Business-day scan lemmas -/

lemma datesGo_business : ∀ {n : Nat} {c d : Date}, d ∈ datesGo n c → isBusinessDay d = true := by
  intro n
  induction n with
  | zero => intro c d h; simp [datesGo] at h
  | succ n ih =>
    intro c d h
    rw [datesGo] at h
    rcases List.mem_append.mp h with h1 | h2
    · by_cases hb : isBusinessDay c
      · simp [hb] at h1; subst h1; exact hb
      · simp [hb] at h1
    · exact ih h2

lemma datesGo_lb : ∀ {n : Nat} {c : Date}, c.Valid → ∀ {d}, d ∈ datesGo n c → c.toOrd ≤ d.toOrd := by
  intro n
  induction n with
  | zero => intro c _ d h; simp [datesGo] at h
  | succ n ih =>
    intro c hc d h
    rw [datesGo] at h
    rcases List.mem_append.mp h with h1 | h2
    · by_cases hb : isBusinessDay c
      · simp [hb] at h1; subst h1; exact le_refl _
      · simp [hb] at h1
    · have := ih (valid_succ hc) h2
      have h2 := toOrd_succ c hc
      omega

lemma datesGo_pairwise : ∀ {n : Nat} {c : Date}, c.Valid →
    (datesGo n c).Pairwise (fun a b => a.toOrd < b.toOrd) := by
  intro n
  induction n with
  | zero => intro c _; simp [datesGo]
  | succ n ih =>
    intro c hc
    rw [datesGo]
    refine List.pairwise_append.mpr ⟨?_, ih (valid_succ hc), ?_⟩
    · by_cases hb : isBusinessDay c <;> simp [hb]
    · intro a ha b hb'
      by_cases hb : isBusinessDay c
      · simp [hb] at ha
        have h1 := datesGo_lb (valid_succ hc) hb'
        have h2 := toOrd_succ c hc
        rw [ha]
        omega
      · simp [hb] at ha

/-- C3: every date yielded by `generate_dates` has a weekday other than the
excluded Sunday (6) and is not a holiday; the yielded dates are strictly
ascending (by day ordinal); and when the end date precedes the start date the
result is empty, with no error. -/
theorem c3_generate_dates (s e : Date) (hs : s.Valid) :
    (∀ d ∈ generate_dates s e, d.weekday ≠ 6 ∧ d ∉ holidays) ∧
    (generate_dates s e).Pairwise (fun a b => a.toOrd < b.toOrd) ∧
    (e.toOrd < s.toOrd → generate_dates s e = []) := by
  refine ⟨?_, datesGo_pairwise hs, ?_⟩
  · intro d hd
    have hb := datesGo_business hd
    simp only [isBusinessDay, Bool.and_eq_true, decide_eq_true_iff] at hb
    exact ⟨by omega, hb.2⟩
  · intro h
    unfold generate_dates
    have h0 : e.toOrd + 1 - s.toOrd = 0 := by omega
    rw [h0]
    rfl

/-- Closed instance of C3 on the first week of January 2024. -/
theorem c3_generate_dates_witness :
    (∀ d ∈ generate_dates ⟨2024, 1, 1⟩ ⟨2024, 1, 8⟩, d.weekday ≠ 6 ∧ d ∉ holidays) ∧
    (generate_dates ⟨2024, 1, 1⟩ ⟨2024, 1, 8⟩).Pairwise (fun a b => a.toOrd < b.toOrd) ∧
    ((⟨2024, 1, 8⟩ : Date).toOrd < (⟨2024, 1, 1⟩ : Date).toOrd →
      generate_dates ⟨2024, 1, 1⟩ ⟨2024, 1, 8⟩ = []) :=
  c3_generate_dates ⟨2024, 1, 1⟩ ⟨2024, 1, 8⟩ (by decide)

/-- C10: on every date yielded by `generate_dates`, the weekend test
`weekday >= 5` of `generate_transactions` is equivalent to `weekday == 5`, so
the 1.3 multiplier fires exactly on Saturdays. -/
theorem c10_weekend_multiplier (s e : Date) :
    ∀ d ∈ generate_dates s e,
      (5 ≤ d.weekday ↔ d.weekday = 5) ∧
      ((if 5 ≤ d.weekday then (13 : ℚ)/10 else 1) = if d.weekday = 5 then (13 : ℚ)/10 else 1) := by
  intro d hd
  have hb := datesGo_business hd
  simp only [isBusinessDay, Bool.and_eq_true, decide_eq_true_iff] at hb
  obtain ⟨hw, _⟩ := hb
  refine ⟨by omega, ?_⟩
  by_cases h5 : d.weekday = 5
  · rw [if_pos (by omega), if_pos h5]
  · rw [if_neg (by omega), if_neg h5]

/-- Closed instance of C10 at Saturday 2024-01-06. -/
theorem c10_weekend_multiplier_witness :
    (5 ≤ (⟨2024, 1, 6⟩ : Date).weekday ↔ (⟨2024, 1, 6⟩ : Date).weekday = 5) ∧
    ((if 5 ≤ (⟨2024, 1, 6⟩ : Date).weekday then (13 : ℚ)/10 else 1) =
      if (⟨2024, 1, 6⟩ : Date).weekday = 5 then (13 : ℚ)/10 else 1) :=
  c10_weekend_multiplier ⟨2024, 1, 1⟩ ⟨2024, 1, 6⟩ ⟨2024, 1, 6⟩ (by decide)

/-! ### Rounding and random-draw lemmas -/

lemma roundHalfEven_ge_floor (q : ℚ) : ⌊q⌋ ≤ roundHalfEven q := by
  simp only [roundHalfEven]
  split_ifs <;> omega

lemma roundHalfEven_le_ceil (q : ℚ) : roundHalfEven q ≤ ⌈q⌉ := by
  simp only [roundHalfEven]
  split_ifs with h1 h2 h3
  · exact Int.floor_le_ceil q
  · have hq : (⌊q⌋ : ℚ) < q := by linarith
    have := Int.lt_ceil.mpr hq
    omega
  · exact Int.floor_le_ceil q
  · have h4 : (1 : ℚ)/2 ≤ q - ⌊q⌋ := not_lt.mp h1
    have hq : (⌊q⌋ : ℚ) < q := by linarith
    have := Int.lt_ceil.mpr hq
    omega

lemma int_le_round2 (a : ℤ) (q : ℚ) (h : (a : ℚ) ≤ q) : (a : ℚ) ≤ round2 q := by
  have h1 : (a * 100 : ℤ) ≤ ⌊q * 100⌋ := Int.le_floor.mpr (by push_cast; linarith)
  have h2 := roundHalfEven_ge_floor (q * 100)
  have h3 : ((a * 100 : ℤ) : ℚ) ≤ (roundHalfEven (q * 100) : ℚ) :=
    Int.cast_le.mpr (le_trans h1 h2)
  push_cast at h3
  unfold round2
  linarith

lemma round2_le_int (b : ℤ) (q : ℚ) (h : q ≤ b) : round2 q ≤ (b : ℚ) := by
  have h1 : ⌈q * 100⌉ ≤ (b * 100 : ℤ) := Int.ceil_le.mpr (by push_cast; linarith)
  have h2 := roundHalfEven_le_ceil (q * 100)
  have h3 : ((roundHalfEven (q * 100) : ℤ) : ℚ) ≤ ((b * 100 : ℤ) : ℚ) :=
    Int.cast_le.mpr (le_trans h2 h1)
  push_cast at h3
  unfold round2
  linarith

lemma twoDec_round2 (q : ℚ) : twoDec (round2 q) := by
  refine ⟨roundHalfEven (q * 100), ?_⟩
  unfold round2
  field_simp

lemma round2_discount_le (m dsc : ℚ) (hm : 0 ≤ m) (htd : twoDec m)
    (h0 : 0 ≤ dsc) (h1 : dsc ≤ 1) : round2 (m * (1 - dsc)) ≤ m := by
  obtain ⟨z, hz⟩ := htd
  have hle : m * (1 - dsc) * 100 ≤ (z : ℚ) := by rw [hz]; nlinarith
  have hceil : ⌈m * (1 - dsc) * 100⌉ ≤ z := Int.ceil_le.mpr hle
  have hrhe := roundHalfEven_le_ceil (m * (1 - dsc) * 100)
  have hcast : (roundHalfEven (m * (1 - dsc) * 100) : ℚ) ≤ (z : ℚ) :=
    Int.cast_le.mpr (le_trans hrhe hceil)
  unfold round2
  rw [hz] at hcast
  linarith

lemma randint_bounds (lo hi : Nat) (r : Rng) (h : lo ≤ hi) :
    lo ≤ (randint lo hi r).1 ∧ (randint lo hi r).1 ≤ hi := by
  have hpos : 0 < hi + 1 - lo := by omega
  have hmod := Nat.mod_lt (r.gen r.pos) hpos
  unfold randint Rng.next
  dsimp only
  omega

lemma uniform_bounds (lo hi : ℚ) (r : Rng) (h : lo ≤ hi) :
    lo ≤ (uniform lo hi r).1 ∧ (uniform lo hi r).1 ≤ hi := by
  unfold uniform Rng.next
  dsimp only
  have h0 : (0 : ℚ) ≤ ((r.gen r.pos % 1000000 : Nat) : ℚ) := Nat.cast_nonneg _
  have h1 : ((r.gen r.pos % 1000000 : Nat) : ℚ) ≤ 1000000 := by
    have hlt := Nat.mod_lt (r.gen r.pos) (show 0 < 1000000 by norm_num)
    exact_mod_cast hlt.le
  have hd : (0 : ℚ) ≤ hi - lo := by linarith
  constructor
  · nlinarith
  · nlinarith

lemma round2_uniform_lb (lo hi : ℚ) (a : ℤ) (r : Rng) (ha : (a : ℚ) = lo) (h : lo ≤ hi) :
    lo ≤ round2 (uniform lo hi r).1 := by
  have hu := (uniform_bounds lo hi r h).1
  have hr := int_le_round2 a (uniform lo hi r).1 (by rw [ha]; exact hu)
  rwa [ha] at hr

lemma round2_uniform_ub (lo hi : ℚ) (b : ℤ) (r : Rng) (hb : (b : ℚ) = hi) (h : lo ≤ hi) :
    round2 (uniform lo hi r).1 ≤ hi := by
  have hu := (uniform_bounds lo hi r h).2
  have hr := round2_le_int b (uniform lo hi r).1 (by rw [hb]; exact hu)
  rwa [hb] at hr

lemma getD_mem {α : Type} : ∀ (l : List α) (i : Nat) (dflt : α),
    i < l.length → l.getD i dflt ∈ l := by
  intro l
  induction l with
  | nil => intro i dflt h; simp at h
  | cons x xs ih =>
    intro i dflt h
    cases i with
    | zero => simp
    | succ j =>
      have hj : j < xs.length := by simpa using h
      exact List.mem_cons_of_mem x (ih j dflt hj)

lemma choiceD_mem {α : Type} (l : List α) (dflt : α) (r : Rng) (h : l ≠ []) :
    (choiceD l dflt r).1 ∈ l := by
  unfold choiceD Rng.next
  dsimp only
  exact getD_mem l _ dflt (Nat.mod_lt _ (List.length_pos.mpr h))

/-! ### Product catalog lemmas -/

lemma genProductsGo_length : ∀ (n i : Nat) (r : Rng), (genProductsGo n i r).1.length = n := by
  intro n
  induction n with
  | zero => intro i r; rfl
  | succ n ih => intro i r; simp [genProductsGo, ih]

lemma genProductsGo_sno : ∀ (n i : Nat) (r : Rng),
    (genProductsGo n i r).1.map (fun p => p.sno) = List.range' (i + 1) n := by
  intro n
  induction n with
  | zero => intro i r; rfl
  | succ n ih => intro i r; simp [genProductsGo, ih, List.range'_succ]

lemma genProductsGo_mem : ∀ (n i : Nat) (r : Rng), ∀ p ∈ (genProductsGo n i r).1,
    (10 ≤ p.mrp ∧ p.mrp ≤ 500 ∧ twoDec p.mrp) ∧
    (5 ≤ p.cost_price ∧ p.cost_price ≤ 400 ∧ twoDec p.cost_price) ∧
    (30 ≤ p.shelf_life_days ∧ p.shelf_life_days ≤ 720) := by
  intro n
  induction n with
  | zero => intro i r p hp; simp [genProductsGo] at hp
  | succ n ih =>
    intro i r p hp
    simp only [genProductsGo] at hp
    rcases List.mem_cons.mp hp with hph | hpt
    · subst hph
      exact ⟨⟨round2_uniform_lb 10 500 10 _ (by norm_num) (by norm_num),
              round2_uniform_ub 10 500 500 _ (by norm_num) (by norm_num),
              twoDec_round2 _⟩,
             ⟨round2_uniform_lb 5 400 5 _ (by norm_num) (by norm_num),
              round2_uniform_ub 5 400 400 _ (by norm_num) (by norm_num),
              twoDec_round2 _⟩,
             (randint_bounds 30 720 _ (by norm_num)).1,
             (randint_bounds 30 720 _ (by norm_num)).2⟩
    · exact ih _ _ p hpt

/-- C4: `generate_products` returns exactly the requested number of records;
every record has MRP in [10, 500] and cost price in [5, 400], both rounded to
two decimal places, and shelf life in [30, 720]. -/
theorem c4_generate_products (n : Nat) (r : Rng) :
    (generate_products n r).1.length = n ∧
    ∀ p ∈ (generate_products n r).1,
      (10 ≤ p.mrp ∧ p.mrp ≤ 500 ∧ twoDec p.mrp) ∧
      (5 ≤ p.cost_price ∧ p.cost_price ≤ 400 ∧ twoDec p.cost_price) ∧
      (30 ≤ p.shelf_life_days ∧ p.shelf_life_days ≤ 720) :=
  ⟨genProductsGo_length n 0 r, fun p hp => genProductsGo_mem n 0 r p hp⟩

/-- Closed instance of C4: the catalog of size one drawn from the zero stream. -/
theorem c4_generate_products_witness :
    (generate_products 1 zrng).1.length = 1 ∧
    ((10 ≤ wprod.mrp ∧ wprod.mrp ≤ 500 ∧ twoDec wprod.mrp) ∧
     (5 ≤ wprod.cost_price ∧ wprod.cost_price ≤ 400 ∧ twoDec wprod.cost_price) ∧
     (30 ≤ wprod.shelf_life_days ∧ wprod.shelf_life_days ≤ 720)) :=
  ⟨(c4_generate_products 1 zrng).1,
   (c4_generate_products 1 zrng).2 wprod (by with_unfolding_all decide)⟩

/-! ### Transaction generator lemmas -/

lemma discounts_bounds : ∀ dsc ∈ discounts, 0 ≤ dsc ∧ dsc ≤ 1 := by
  intro d hd
  simp only [discounts, List.mem_cons, List.not_mem_nil, or_false] at hd
  rcases hd with rfl | rfl | rfl | rfl | rfl <;> norm_num

lemma genTxn_spec {date : Date} {ps : List Product} {sno : Nat} {r : Rng} {t : Txn} {r' : Rng}
    (h : genTxn date ps sno r = some (t, r')) :
    t.sno = sno ∧ t.date = date ∧ 1 ≤ t.quantity ∧ t.quantity ≤ 5 ∧
    ∃ p dsc, ps.find? (fun q => q.product_name == t.product_name) = some p ∧
      dsc ∈ discounts ∧
      t.unit_price = round2 (p.mrp * (1 - dsc)) ∧
      t.total_amount = round2 (p.mrp * (t.quantity : ℚ) * (1 - dsc)) := by
  unfold genTxn at h
  cases hc : choice (ps.map (fun p => p.product_name)) r with
  | none => rw [hc] at h; dsimp only at h; exact absurd h (by simp)
  | some pr =>
    rw [hc] at h
    dsimp only at h
    cases hf : ps.find? (fun p => p.product_name == pr.1) with
    | none => rw [hf] at h; dsimp only at h; exact absurd h (by simp)
    | some pd =>
      rw [hf] at h
      dsimp only at h
      simp only [Option.some.injEq, Prod.mk.injEq] at h
      obtain ⟨ht, hr'⟩ := h
      subst ht
      refine ⟨rfl, rfl,
        (randint_bounds 1 5 pr.2 (by norm_num)).1,
        (randint_bounds 1 5 pr.2 (by norm_num)).2,
        pd, (choiceD discounts 0 (randint 1 5 pr.2).2).1, hf,
        choiceD_mem discounts 0 _ (by simp [discounts]), rfl, rfl⟩

lemma genTxnDay_spec {date : Date} {ps : List Product} :
    ∀ {cnt sno : Nat} {r : Rng} {ts : List Txn} {sno' : Nat} {r' : Rng},
      genTxnDay date ps cnt sno r = some (ts, sno', r') →
      sno' = sno + ts.length ∧ ts.map (fun t => t.sno) = List.range' sno ts.length ∧
      ∀ t ∈ ts, t.date = date ∧ 1 ≤ t.quantity ∧ t.quantity ≤ 5 ∧
        ∃ p dsc, ps.find? (fun q => q.product_name == t.product_name) = some p ∧
          dsc ∈ discounts ∧
          t.unit_price = round2 (p.mrp * (1 - dsc)) ∧
          t.total_amount = round2 (p.mrp * (t.quantity : ℚ) * (1 - dsc)) := by
  intro cnt
  induction cnt with
  | zero =>
    intro sno r ts sno' r' h
    simp only [genTxnDay, Option.some.injEq, Prod.mk.injEq] at h
    obtain ⟨h1, h2, h3⟩ := h
    subst h1
    simp [h2]
  | succ c ih =>
    intro sno r ts sno' r' h
    rw [genTxnDay] at h
    cases h1 : genTxn date ps sno r with
    | none => rw [h1] at h; dsimp only at h; exact absurd h (by simp)
    | some tr =>
      obtain ⟨t0, r1⟩ := tr
      rw [h1] at h
      dsimp only at h
      cases h2 : genTxnDay date ps c (sno + 1) r1 with
      | none => rw [h2] at h; dsimp only at h; exact absurd h (by simp)
      | some rest =>
        obtain ⟨ts0, sno0, r0⟩ := rest
        rw [h2] at h
        dsimp only at h
        simp only [Option.some.injEq, Prod.mk.injEq] at h
        obtain ⟨hts, hsno, hr⟩ := h
        subst hts
        obtain ⟨ha, hb, hc⟩ := ih h2
        obtain ⟨e1, e2, e3, e4, e5⟩ := genTxn_spec h1
        refine ⟨by simp; omega, ?_, ?_⟩
        · simp only [List.map_cons, List.length_cons, List.range'_succ, e1, hb]
        · intro t ht
          rcases List.mem_cons.mp ht with rfl | htt
          · exact ⟨e2, e3, e4, e5⟩
          · exact hc t htt

lemma genTxnDays_spec {ps : List Product} :
    ∀ {ds : List Date} {sno : Nat} {r : Rng} {ts : List Txn} {sno' : Nat} {r' : Rng},
      genTxnDays ps ds sno r = some (ts, sno', r') →
      sno' = sno + ts.length ∧ ts.map (fun t => t.sno) = List.range' sno ts.length ∧
      ∀ t ∈ ts, t.date ∈ ds ∧ 1 ≤ t.quantity ∧ t.quantity ≤ 5 ∧
        ∃ p dsc, ps.find? (fun q => q.product_name == t.product_name) = some p ∧
          dsc ∈ discounts ∧
          t.unit_price = round2 (p.mrp * (1 - dsc)) ∧
          t.total_amount = round2 (p.mrp * (t.quantity : ℚ) * (1 - dsc)) := by
  intro ds
  induction ds with
  | nil =>
    intro sno r ts sno' r' h
    simp only [genTxnDays, Option.some.injEq, Prod.mk.injEq] at h
    obtain ⟨h1, h2, h3⟩ := h
    subst h1
    simp [h2]
  | cons d ds ih =>
    intro sno r ts sno' r' h
    rw [genTxnDays] at h
    cases h1 : genTxnDay d ps
        ((⌊((randint DAILY_TRANSACTIONS_RANGE.1 DAILY_TRANSACTIONS_RANGE.2 r).1 : ℚ) *
          (if 5 ≤ d.weekday then 13/10 else 1)⌋).toNat) sno
        (randint DAILY_TRANSACTIONS_RANGE.1 DAILY_TRANSACTIONS_RANGE.2 r).2 with
    | none => rw [h1] at h; dsimp only at h; exact absurd h (by simp)
    | some day =>
      obtain ⟨ts1, sno1, r1⟩ := day
      rw [h1] at h
      dsimp only at h
      cases h2 : genTxnDays ps ds sno1 r1 with
      | none => rw [h2] at h; dsimp only at h; exact absurd h (by simp)
      | some rest =>
        obtain ⟨ts2, sno2, r2⟩ := rest
        rw [h2] at h
        dsimp only at h
        simp only [Option.some.injEq, Prod.mk.injEq] at h
        obtain ⟨hts, hsno, hr⟩ := h
        subst hts
        obtain ⟨a1, a2, a3⟩ := genTxnDay_spec h1
        obtain ⟨b1, b2, b3⟩ := ih h2
        refine ⟨?_, ?_, ?_⟩
        · simp only [List.length_append]; omega
        · rw [List.map_append, a2, b2, a1, List.range'_append_1, List.length_append]
          congr 1
          omega
        · intro t ht
          rcases List.mem_append.mp ht with h | h
          · obtain ⟨c1, c2, c3, c4, c5⟩ := a3 t h
            exact ⟨by rw [c1]; exact List.mem_cons_self d ds, c2, c3, c4, c5⟩
          · obtain ⟨c1, c2, c3, c4, c5⟩ := b3 t h
            exact ⟨List.mem_cons_of_mem d c1, c2, c3, c4, c5⟩

lemma generate_transactions_spec {s e : Date} {ps : List Product} {r : Rng} {ts : List Txn}
    {r' : Rng} (h : generate_transactions s e ps r = some (ts, r')) :
    ts.map (fun t => t.sno) = List.range' 1 ts.length ∧
    ∀ t ∈ ts, t.date ∈ generate_dates s e ∧ 1 ≤ t.quantity ∧ t.quantity ≤ 5 ∧
      ∃ p dsc, ps.find? (fun q => q.product_name == t.product_name) = some p ∧
        dsc ∈ discounts ∧
        t.unit_price = round2 (p.mrp * (1 - dsc)) ∧
        t.total_amount = round2 (p.mrp * (t.quantity : ℚ) * (1 - dsc)) := by
  unfold generate_transactions at h
  cases hg : genTxnDays ps (generate_dates s e) 1 r with
  | none => rw [hg] at h; simp at h
  | some x =>
    obtain ⟨ts0, sno0, r0⟩ := x
    rw [hg] at h
    simp only [Option.map_some', Option.some.injEq, Prod.mk.injEq] at h
    obtain ⟨hts, hr⟩ := h
    subst hts
    obtain ⟨_, b2, b3⟩ := genTxnDays_spec hg
    exact ⟨b2, b3⟩

set_option maxRecDepth 100000 in
lemma wrun_eq :
    generate_transactions ⟨2024, 1, 2⟩ ⟨2024, 1, 2⟩ wcat wrng = some (wts, ⟨wgen, 481⟩) := by
  with_unfolding_all rfl

lemma wcat_mrp_ok : ∀ p ∈ wcat, 0 ≤ p.mrp ∧ twoDec p.mrp := by
  intro p hp
  simp only [wcat, List.mem_singleton] at hp
  subst hp
  exact ⟨by norm_num [wp], ⟨1004, by norm_num [wp]⟩⟩

/-- C5: every transaction's unit price is at most the MRP of the referenced
product (the first catalog row whose name matches the transaction's product
name), for any catalog whose MRPs are nonnegative two-decimal values — as the
catalogs produced by `generate_products` are. -/
theorem c5_unit_price_le_mrp (s e : Date) (ps : List Product) (r : Rng) (ts : List Txn)
    (r' : Rng) (hcat : ∀ p ∈ ps, 0 ≤ p.mrp ∧ twoDec p.mrp)
    (h : generate_transactions s e ps r = some (ts, r')) :
    ∀ t ∈ ts, ∀ p, ps.find? (fun q => q.product_name == t.product_name) = some p →
      t.unit_price ≤ p.mrp := by
  intro t ht p hp
  obtain ⟨_, hmem⟩ := generate_transactions_spec h
  obtain ⟨_, _, _, p0, dsc, hfind, hdsc, hunit, _⟩ := hmem t ht
  rw [hp] at hfind
  obtain rfl : p = p0 := Option.some.inj hfind
  have hpp := hcat p (List.mem_of_find?_eq_some hp)
  have hb := discounts_bounds dsc hdsc
  rw [hunit]
  exact round2_discount_le p.mrp dsc hpp.1 hpp.2 hb.1 hb.2

set_option maxRecDepth 100000 in
/-- Closed instance of C5 on the crafted single-day run. -/
theorem c5_unit_price_le_mrp_witness : wtx.unit_price ≤ wp.mrp :=
  c5_unit_price_le_mrp ⟨2024, 1, 2⟩ ⟨2024, 1, 2⟩ wcat wrng wts ⟨wgen, 481⟩ wcat_mrp_ok wrun_eq
    wtx (by with_unfolding_all decide) wp (by with_unfolding_all decide)

set_option maxRecDepth 100000 in
/-- C2 as stated is false: on the catalog `wcat` (MRP 10.04) with the crafted
stream, the generator emits a transaction with quantity 2 and discount 0.1
whose stored total 18.07 differs from `round(unit_price * quantity, 2)` =
`round(9.04 * 2, 2)` = 18.08: the code rounds `mrp * qty * (1 - discount)`
directly instead of multiplying the rounded unit price. -/
theorem c2_total_amount_counterexample :
    generate_transactions ⟨2024, 1, 2⟩ ⟨2024, 1, 2⟩ wcat wrng = some (wts, ⟨wgen, 481⟩) ∧
    wtx ∈ wts ∧
    wtx.total_amount ≠ round2 (wtx.unit_price * (wtx.quantity : ℚ)) :=
  ⟨wrun_eq, by with_unfolding_all decide, by with_unfolding_all decide⟩

/-- C2 (amended): every transaction's unit price and total amount are derived
from the referenced product's MRP with one common discount drawn from the
fixed pool: `unit_price = round(mrp * (1 - d), 2)` and
`total_amount = round(mrp * quantity * (1 - d), 2)` — the discount is applied
to the exact product before rounding, which can differ from
`round(unit_price * quantity, 2)` by a rounding residue. -/
theorem c2_total_amount (s e : Date) (ps : List Product) (r : Rng) (ts : List Txn) (r' : Rng)
    (h : generate_transactions s e ps r = some (ts, r')) :
    ∀ t ∈ ts, ∀ p, ps.find? (fun q => q.product_name == t.product_name) = some p →
      ∃ dsc ∈ discounts, t.unit_price = round2 (p.mrp * (1 - dsc)) ∧
        t.total_amount = round2 (p.mrp * (t.quantity : ℚ) * (1 - dsc)) := by
  intro t ht p hp
  obtain ⟨_, hmem⟩ := generate_transactions_spec h
  obtain ⟨_, _, _, p0, dsc, hfind, hdsc, hunit, htot⟩ := hmem t ht
  rw [hp] at hfind
  obtain rfl : p = p0 := Option.some.inj hfind
  exact ⟨dsc, hdsc, hunit, htot⟩

set_option maxRecDepth 100000 in
/-- Closed instance of the amended C2 on the crafted single-day run. -/
theorem c2_total_amount_witness :
    ∃ dsc ∈ discounts, wtx.unit_price = round2 (wp.mrp * (1 - dsc)) ∧
      wtx.total_amount = round2 (wp.mrp * (wtx.quantity : ℚ) * (1 - dsc)) :=
  c2_total_amount ⟨2024, 1, 2⟩ ⟨2024, 1, 2⟩ wcat wrng wts ⟨wgen, 481⟩ wrun_eq wtx
    (by with_unfolding_all decide) wp (by with_unfolding_all decide)

/-! ### Empty catalog and determinism -/

lemma genTxn_nil_none (d : Date) (sno : Nat) (r : Rng) : genTxn d [] sno r = none := rfl

lemma genTxnDay_nil_none (d : Date) (cnt sno : Nat) (r : Rng) (h : cnt ≠ 0) :
    genTxnDay d [] cnt sno r = none := by
  obtain ⟨c, rfl⟩ := Nat.exists_eq_succ_of_ne_zero h
  rw [genTxnDay, genTxn_nil_none]

lemma daily_count_pos (d : Date) (r : Rng) :
    (⌊((randint DAILY_TRANSACTIONS_RANGE.1 DAILY_TRANSACTIONS_RANGE.2 r).1 : ℚ) *
      (if 5 ≤ d.weekday then (13 : ℚ)/10 else 1)⌋).toNat ≠ 0 := by
  have hb : 80 ≤ (randint DAILY_TRANSACTIONS_RANGE.1 DAILY_TRANSACTIONS_RANGE.2 r).1 :=
    (randint_bounds 80 120 r (by norm_num)).1
  have hbq : (1 : ℚ) ≤ ((randint DAILY_TRANSACTIONS_RANGE.1 DAILY_TRANSACTIONS_RANGE.2 r).1 : ℚ) := by
    exact_mod_cast le_trans (by norm_num) hb
  have hmult : (1 : ℚ) ≤ (if 5 ≤ d.weekday then (13 : ℚ)/10 else 1) := by
    split_ifs <;> norm_num
  have hprod : (1 : ℚ) ≤ ((randint DAILY_TRANSACTIONS_RANGE.1 DAILY_TRANSACTIONS_RANGE.2 r).1 : ℚ) *
      (if 5 ≤ d.weekday then (13 : ℚ)/10 else 1) := by nlinarith
  have hfl : (1 : ℤ) ≤ ⌊((randint DAILY_TRANSACTIONS_RANGE.1 DAILY_TRANSACTIONS_RANGE.2 r).1 : ℚ) *
      (if 5 ≤ d.weekday then (13 : ℚ)/10 else 1)⌋ := Int.le_floor.mpr (by push_cast; linarith)
  omega

/-- C8: on an empty catalog, `generate_transactions` fails (the product pick
raises) whenever the range contains at least one business day, and returns an
empty result without error when the range contains none. -/
theorem c8_empty_catalog (s e : Date) (r : Rng) :
    (generate_dates s e ≠ [] → generate_transactions s e [] r = none) ∧
    (generate_dates s e = [] → generate_transactions s e [] r = some ([], r)) := by
  constructor
  · intro hne
    unfold generate_transactions
    obtain ⟨d, ds, hds⟩ := List.exists_cons_of_ne_nil hne
    rw [hds, genTxnDays]
    rw [genTxnDay_nil_none d _ _ _ (daily_count_pos d r)]
    rfl
  · intro hemp
    unfold generate_transactions
    rw [hemp, genTxnDays]
    rfl

/-- Closed instance of C8: one business day versus an inverted range. -/
theorem c8_empty_catalog_witness :
    generate_transactions ⟨2024, 1, 2⟩ ⟨2024, 1, 2⟩ [] zrng = none ∧
    generate_transactions ⟨2024, 1, 2⟩ ⟨2024, 1, 1⟩ [] zrng = some ([], zrng) :=
  ⟨(c8_empty_catalog ⟨2024, 1, 2⟩ ⟨2024, 1, 2⟩ zrng).1 (by decide),
   (c8_empty_catalog ⟨2024, 1, 2⟩ ⟨2024, 1, 1⟩ zrng).2 (by decide)⟩

/-- C9: the whole pipeline (products, then transactions, then expenses) is a
pure function of the random source's state: equal seed states give identical
outputs. -/
theorem c9_seed_determinism (r1 r2 : Rng) (h : r1 = r2) : runPipeline r1 = runPipeline r2 := by
  rw [h]

/-- Closed instance of C9 at the zero stream. -/
theorem c9_seed_determinism_witness : runPipeline zrng = runPipeline zrng :=
  c9_seed_determinism zrng zrng rfl

/-! ### Expense generator lemmas -/

lemma genExpCats_proj (d : Date) : ∀ (tbl : List (String × String × ℚ × ℚ)) (sno : Nat) (r : Rng),
    ((genExpCats d tbl sno r).1).map (fun x => (x.category, x.date)) =
      (tbl.filter (fun ecat => shouldRecord ecat.2.1 d)).map (fun ecat => (ecat.1, d)) := by
  intro tbl
  induction tbl with
  | nil => intro sno r; rfl
  | cons ecat rest ih =>
    intro sno r
    cases hrec : shouldRecord ecat.2.1 d <;>
      simp [genExpCats, hrec, ih, List.filter_cons]

lemma genExpCats_dates (d : Date) : ∀ (tbl : List (String × String × ℚ × ℚ)) (sno : Nat) (r : Rng),
    ∀ x ∈ (genExpCats d tbl sno r).1, x.date = d := by
  intro tbl
  induction tbl with
  | nil => intro sno r x hx; simp [genExpCats] at hx
  | cons ecat rest ih =>
    intro sno r x hx
    cases hrec : shouldRecord ecat.2.1 d
    · rw [genExpCats, if_neg (by simp [hrec])] at hx
      exact ih _ _ x hx
    · rw [genExpCats, if_pos (by simp [hrec])] at hx
      dsimp only at hx
      rcases List.mem_cons.mp hx with rfl | hxx
      · rfl
      · exact ih _ _ x hxx

lemma genExpCats_sno (d : Date) : ∀ (tbl : List (String × String × ℚ × ℚ)) (sno : Nat) (r : Rng),
    (genExpCats d tbl sno r).2.1 = sno + (genExpCats d tbl sno r).1.length ∧
    (genExpCats d tbl sno r).1.map (fun x => x.sno) =
      List.range' sno (genExpCats d tbl sno r).1.length := by
  intro tbl
  induction tbl with
  | nil => intro sno r; exact ⟨rfl, rfl⟩
  | cons ecat rest ih =>
    intro sno r
    cases hrec : shouldRecord ecat.2.1 d
    · simpa [genExpCats, hrec] using ih sno r
    · have h2 := ih (sno + 1) (uniform ecat.2.2.1 ecat.2.2.2 r).2
      simp [genExpCats, hrec, h2.1, h2.2, List.range'_succ]
      omega

lemma genExpDays_proj : ∀ (ds : List Date) (sno : Nat) (r : Rng),
    ((genExpDays ds sno r).1).map (fun x => (x.category, x.date)) =
      ds.flatMap (fun d => (expense_categories.filter
        (fun ecat => shouldRecord ecat.2.1 d)).map (fun ecat => (ecat.1, d))) := by
  intro ds
  induction ds with
  | nil => intro sno r; rfl
  | cons d ds ih =>
    intro sno r
    simp [genExpDays, genExpCats_proj, ih]

lemma genExpDays_dates : ∀ (ds : List Date) (sno : Nat) (r : Rng),
    ∀ x ∈ (genExpDays ds sno r).1, x.date ∈ ds := by
  intro ds
  induction ds with
  | nil => intro sno r x hx; simp [genExpDays] at hx
  | cons d ds ih =>
    intro sno r x hx
    rw [genExpDays] at hx
    dsimp only at hx
    rcases List.mem_append.mp hx with h | h
    · rw [genExpCats_dates d expense_categories sno r x h]
      exact List.mem_cons_self d ds
    · exact List.mem_cons_of_mem d (ih _ _ x h)

lemma genExpDays_sno : ∀ (ds : List Date) (sno : Nat) (r : Rng),
    (genExpDays ds sno r).2.1 = sno + (genExpDays ds sno r).1.length ∧
    (genExpDays ds sno r).1.map (fun x => x.sno) =
      List.range' sno (genExpDays ds sno r).1.length := by
  intro ds
  induction ds with
  | nil => intro sno r; exact ⟨rfl, rfl⟩
  | cons d ds ih =>
    intro sno r
    have h1 := genExpCats_sno d expense_categories sno r
    have h2 := ih (genExpCats d expense_categories sno r).2.1
      (genExpCats d expense_categories sno r).2.2
    rw [genExpDays]
    dsimp only
    constructor
    · rw [List.length_append]
      omega
    · rw [List.map_append, h1.2, h2.2, h1.1, List.range'_append_1, List.length_append]
      congr 1
      omega

/-! ### Per-category filtering of the expense table -/

lemma filter_map_pair (c : String) : ∀ (es : List Expense),
    (es.filter (fun x => x.category == c)).map (fun x => x.date) =
      ((es.map (fun x => (x.category, x.date))).filter (fun y => y.1 == c)).map
        (fun y => y.2) := by
  intro es
  induction es with
  | nil => rfl
  | cons x es ih =>
    cases hx : (x.category == c) <;> simp [List.filter_cons, hx, ih]

lemma table_filter (c f : String) (lo hi : ℚ) :
    ∀ (tbl : List (String × String × ℚ × ℚ)) (Q : (String × String × ℚ × ℚ) → Bool),
      (tbl.map (fun ecat => ecat.1)).Nodup → (c, f, lo, hi) ∈ tbl →
      tbl.filter (fun ecat => (ecat.1 == c) && Q ecat) =
        if Q (c, f, lo, hi) then [(c, f, lo, hi)] else [] := by
  intro tbl
  induction tbl with
  | nil => intro Q _ hm; simp at hm
  | cons ecat rest ih =>
    intro Q hnd hm
    simp only [List.map_cons, List.nodup_cons] at hnd
    obtain ⟨hn1, hn2⟩ := hnd
    rcases List.mem_cons.mp hm with heq | hmem
    · subst heq
      have hrest : rest.filter (fun ecat => (ecat.1 == c) && Q ecat) = [] := by
        rw [List.filter_eq_nil_iff]
        intro a ha hcon
        simp only [Bool.and_eq_true, beq_iff_eq] at hcon
        exact hn1 (hcon.1 ▸ List.mem_map_of_mem (fun ecat => ecat.1) ha)
      rw [List.filter_cons, hrest]
      cases hq : Q (c, f, lo, hi) <;> simp [hq]
    · have hcne : ecat.1 ≠ c := by
        intro hcontra
        exact hn1 (hcontra ▸ List.mem_map_of_mem (fun ecat => ecat.1) hmem)
      rw [List.filter_cons]
      have hfalse : ((ecat.1 == c) && Q ecat) = false := by
        simp [hcne]
      rw [hfalse]
      simp only [Bool.false_eq_true, if_false]
      exact ih Q hn2 hmem

lemma flatMap_singleton_filter {α : Type} (p : α → Bool) : ∀ (l : List α),
    (l.flatMap (fun a => if p a then [a] else [])) = l.filter p := by
  intro l
  induction l with
  | nil => rfl
  | cons a l ih => cases hp : p a <;> simp [List.filter_cons, hp, ih]

set_option maxRecDepth 1000000 in
/-- C1 as stated is false on the code: over the range Sep 1 - Sep 7 2024, a
simulated month with six business days, the monthly category "Rent" produces
zero records instead of exactly one, because Sep 1 2024 is a Sunday and the
monthly rule only fires on a first-of-month that survives the business-day
filter. -/
theorem c1_expense_frequency_counterexample :
    ((generate_expenses ⟨2024, 9, 1⟩ ⟨2024, 9, 7⟩ zrng).1.filter
      (fun x => x.category == "Rent")).length = 0 ∧
    (generate_dates ⟨2024, 9, 1⟩ ⟨2024, 9, 7⟩).length = 6 := by
  constructor <;> with_unfolding_all decide

/-- C1 (amended): for every entry (category, frequency, bounds) of the expense
table, the dates of that category's records are exactly the business days of
the range that satisfy the frequency rule — every business day for a daily
category, each Monday that is a business day for a weekly category, and each
first-of-month that is a business day for a monthly category; a month whose
first day is excluded (weekend or holiday) yields no monthly record, and
likewise for weeks whose Monday is excluded. -/
theorem c1_expense_frequency (s e : Date) (r : Rng) (c f : String) (lo hi : ℚ)
    (hmem : (c, f, lo, hi) ∈ expense_categories) :
    ((generate_expenses s e r).1.filter (fun x => x.category == c)).map (fun x => x.date) =
      (generate_dates s e).filter (fun d => shouldRecord f d) := by
  unfold generate_expenses
  dsimp only
  rw [filter_map_pair, genExpDays_proj, List.filter_flatMap, List.map_flatMap]
  have hnodup : (expense_categories.map (fun ecat => ecat.1)).Nodup := by
    with_unfolding_all decide
  have hstep : ∀ d : Date,
      ((((expense_categories.filter (fun ecat => shouldRecord ecat.2.1 d)).map
        (fun ecat => (ecat.1, d))).filter (fun y => y.1 == c)).map (fun y => y.2)) =
      if shouldRecord f d then [d] else [] := by
    intro d
    rw [List.filter_map, List.filter_filter]
    have hpred : (fun (a : String × String × ℚ × ℚ) =>
        ((fun (y : String × Date) => y.1 == c) ∘ fun (ecat : String × String × ℚ × ℚ) =>
          (ecat.1, d)) a && shouldRecord a.2.1 d) =
        (fun (ecat : String × String × ℚ × ℚ) =>
          (ecat.1 == c) && shouldRecord ecat.2.1 d) := by
      funext a
      rfl
    rw [hpred, table_filter c f lo hi expense_categories
      (fun ecat => shouldRecord ecat.2.1 d) hnodup hmem]
    cases hf : shouldRecord f d <;> simp [hf]
  simp only [Function.comp, hstep]
  exact flatMap_singleton_filter _ _

set_option maxRecDepth 1000000 in
/-- Closed instance of the amended C1: the "Rent" dates over Jan 1 - Jan 3 2024
are exactly the monthly-qualifying business days of that range. -/
theorem c1_expense_frequency_witness :
    (("Rent", "monthly", (15000 : ℚ), (20000 : ℚ)) ∈ expense_categories) ∧
    ((generate_expenses ⟨2024, 1, 1⟩ ⟨2024, 1, 3⟩ zrng).1.filter
      (fun x => x.category == "Rent")).map (fun x => x.date) =
      (generate_dates ⟨2024, 1, 1⟩ ⟨2024, 1, 3⟩).filter (fun d => shouldRecord "monthly" d) :=
  ⟨by rw [expense_categories]; exact List.mem_cons_self _ _,
   c1_expense_frequency ⟨2024, 1, 1⟩ ⟨2024, 1, 3⟩ zrng "Rent" "monthly" 15000 20000
     (by rw [expense_categories]; exact List.mem_cons_self _ _)⟩

/-- C6: every transaction date and every expense date lies in the business-day
set produced by `generate_dates` for the same range. -/
theorem c6_dates_in_business_days (s e : Date) (ps : List Product) (r : Rng) :
    (∀ ts r', generate_transactions s e ps r = some (ts, r') →
      ∀ t ∈ ts, t.date ∈ generate_dates s e) ∧
    (∀ x ∈ (generate_expenses s e r).1, x.date ∈ generate_dates s e) := by
  constructor
  · intro ts r' h t ht
    exact ((generate_transactions_spec h).2 t ht).1
  · intro x hx
    unfold generate_expenses at hx
    dsimp only at hx
    exact genExpDays_dates (generate_dates s e) 1 r x hx

set_option maxRecDepth 100000 in
/-- Closed instance of C6 on the crafted transaction run and the Jan 1
expense run. -/
theorem c6_dates_in_business_days_witness :
    wtx.date ∈ generate_dates ⟨2024, 1, 2⟩ ⟨2024, 1, 2⟩ ∧
    ((generate_expenses ⟨2024, 1, 1⟩ ⟨2024, 1, 1⟩ zrng).1.getD 0 wexp).date ∈
      generate_dates ⟨2024, 1, 1⟩ ⟨2024, 1, 1⟩ :=
  ⟨(c6_dates_in_business_days ⟨2024, 1, 2⟩ ⟨2024, 1, 2⟩ wcat wrng).1 wts ⟨wgen, 481⟩ wrun_eq
    wtx (by with_unfolding_all decide),
   (c6_dates_in_business_days ⟨2024, 1, 1⟩ ⟨2024, 1, 1⟩ [] zrng).2 _
    (getD_mem _ 0 wexp (by with_unfolding_all decide))⟩

/-- C7: in each of the three record sets, the sequence numbers are exactly
1, 2, 3, ... in emission order. -/
theorem c7_sno_sequence (n : Nat) (s e : Date) (ps : List Product) (r : Rng) :
    (generate_products n r).1.map (fun p => p.sno) =
      List.range' 1 ((generate_products n r).1.length) ∧
    (∀ ts r', generate_transactions s e ps r = some (ts, r') →
      ts.map (fun t => t.sno) = List.range' 1 ts.length) ∧
    (generate_expenses s e r).1.map (fun x => x.sno) =
      List.range' 1 ((generate_expenses s e r).1.length) := by
  refine ⟨?_, ?_, ?_⟩
  · unfold generate_products
    rw [genProductsGo_length n 0 r]
    exact genProductsGo_sno n 0 r
  · intro ts r' h
    exact (generate_transactions_spec h).1
  · unfold generate_expenses
    dsimp only
    exact (genExpDays_sno (generate_dates s e) 1 r).2

/-- Closed instance of C7 on the three concrete runs. -/
theorem c7_sno_sequence_witness :
    (generate_products 1 zrng).1.map (fun p => p.sno) =
      List.range' 1 ((generate_products 1 zrng).1.length) ∧
    wts.map (fun t => t.sno) = List.range' 1 wts.length ∧
    (generate_expenses ⟨2024, 1, 1⟩ ⟨2024, 1, 1⟩ zrng).1.map (fun x => x.sno) =
      List.range' 1 ((generate_expenses ⟨2024, 1, 1⟩ ⟨2024, 1, 1⟩ zrng).1.length) :=
  ⟨(c7_sno_sequence 1 ⟨2024, 1, 1⟩ ⟨2024, 1, 1⟩ [] zrng).1,
   (c7_sno_sequence 1 ⟨2024, 1, 2⟩ ⟨2024, 1, 2⟩ wcat wrng).2.1 wts ⟨wgen, 481⟩ wrun_eq,
   (c7_sno_sequence 1 ⟨2024, 1, 1⟩ ⟨2024, 1, 1⟩ [] zrng).2.2⟩
